import Mathlib

/-!
Verification development for the chat widget of the hlebuska/hacknu2025
repository. The definitions below are a shallow embedding of the
TypeScript sources:

* `src/widget-frontend/src/features/chat/ui/chatbot.tsx` — the Chatbot
  component holding the transcript state, the WebSocket handlers
  (onopen / onmessage) and `handleSendMessage`;
* `src/widget-frontend/src/features/chat/ui/chat-input.tsx` — the
  ChatInput component (keyboard / click send handlers), plus the
  fallback Chatbot variant bundled in the same file;
* the API configuration module defining `apiConfig.endpoints`.

Machine conventions: JavaScript `Date.now()` values are modelled as
natural numbers supplied by an external clock at each event; message
identifiers are the numeric value of the decimal string the code stores
(`Date.now().toString()`, and `"1"` for the synthetic greeting) — the
decimal rendering of a natural number is injective and order-preserving,
so distinctness and ordering of identifiers coincide in the two views.
Event-driven socket callbacks are modelled as a step function on an
explicit session state, driven by a list of events (open, inbound frame,
user send, close), as in state-machine refinements of callback code.
-/

/-- Message role, from the `Message` type used by `chat-message.tsx`:
`"user" | "assistant"`. -/
inductive Role where
  | user
  | assistant
deriving DecidableEq, Repr

/-- One entry of `applicationContext.matching_sections.requirements`
(chatbot.tsx, `ChatbotProps`). -/
structure Requirement where
  vacancy_req : String
  user_req_data : String
  match_percent : Nat
deriving DecidableEq, Repr

/-- `applicationContext.matching_sections` (chatbot.tsx, `ChatbotProps`). -/
structure MatchingSections where
  requirements : List Requirement
  FIT_SCORE : Nat
deriving DecidableEq, Repr

/-- The `applicationContext` record of `ChatbotProps` (chatbot.tsx). -/
structure AppContext where
  id : String
  vacancy_id : String
  first_name : String
  last_name : String
  email : String
  resume_pdf : String
  matching_score : Nat
  matching_sections : MatchingSections
deriving DecidableEq, Repr

/-- A transcript message (chat-message.tsx `Message`): id is the numeric
value of the stored decimal string, content, role, and the creation-time
timestamp (`new Date()` at the same instant as the id). -/
structure Message where
  id : Nat
  content : String
  role : Role
  timestamp : Nat
deriving DecidableEq, Repr

/-- One `{role, content}` pair of the `history` field built by
`handleSendMessage` (chatbot.tsx line 116-119). -/
structure HistEntry where
  role : Role
  content : String
deriving DecidableEq, Repr

/-- The outbound JSON payload `{message, history, context}` sent with
`ws.send(JSON.stringify(...))` (chatbot.tsx lines 54-59 and 123-128).
`context` is `Option` because the per-turn payload passes the possibly
absent `applicationContext` through. -/
structure Payload where
  message : String
  history : List HistEntry
  context : Option AppContext
deriving DecidableEq, Repr

/-- The initial greeting text (chatbot.tsx lines 34-36): a template
string over the context when present, a fixed string otherwise. -/
def initialGreeting : Option AppContext → String
  | some ctx =>
      "Hello " ++ ctx.first_name ++
      "! I\x27m here to help clarify your application. I can see your matching score is "
      ++ toString ctx.matching_score ++
      "%. Let me ask you a few questions to better understand your qualifications."
  | none => "Hello! How can I help you today?"

/-- The synthetic initial message seeded into `useState` (chatbot.tsx
lines 31-40): id `"1"`, assistant role, greeting content. `t0` is the
clock value of the component mount. -/
def initialMessage (ctx : Option AppContext) (t0 : Nat) : Message :=
  { id := 1, content := initialGreeting ctx, role := Role.assistant, timestamp := t0 }

/-- The priming envelope built in `ws.onopen` (chatbot.tsx lines 54-58). -/
def primingPayload (c : AppContext) : Payload :=
  { message := "Initialize conversation with application context"
    history := []
    context := some c }

/-- `ws.onopen` (chatbot.tsx lines 49-61): if `applicationContext` is
present and the socket is OPEN, send the priming envelope; the payloads
sent by the handler are returned. -/
def onOpen (ctx : Option AppContext) (ready : Bool) : List Payload :=
  match ctx with
  | some c => if ready then [primingPayload c] else []
  | none => []

/-- `ws.onmessage` (chatbot.tsx lines 63-76): the sentinel `"connected"`
is ignored; any other frame is appended as an assistant message with id
and timestamp taken from the clock (`Date.now()` / `new Date()`). -/
def onMessage (data : String) (now : Nat) (msgs : List Message) : List Message :=
  if data = "connected" then msgs
  else msgs ++ [{ id := now, content := data, role := Role.assistant, timestamp := now }]

/-- Projection `(msg) => ({role: msg.role, content: msg.content})`
(chatbot.tsx lines 116-119). -/
def toHistEntry (m : Message) : HistEntry :=
  { role := m.role, content := m.content }

/-- `handleSendMessage` (chatbot.tsx lines 103-132): append the user
message to the transcript, build the history from the appended
transcript filtered by `msg.id !== "1"`, and send
`{message, history, context}` when the socket is OPEN (nothing is sent
otherwise). Returns the new transcript and the optional payload sent. -/
def handleSendMessage (ctx : Option AppContext) (message : String) (now : Nat)
    (msgs : List Message) (ready : Bool) : List Message × Option Payload :=
  let userMessage : Message :=
    { id := now, content := message, role := Role.user, timestamp := now }
  let msgsAfter := msgs ++ [userMessage]
  let conversationHistory := (msgsAfter.filter (fun m => m.id != 1)).map toHistEntry
  (msgsAfter,
   if ready then
     some { message := message, history := conversationHistory, context := ctx }
   else
     none)

/-- Session events driving the callback handlers: transport open,
an inbound frame (with the clock value at arrival), a user send (with
the clock value at `Date.now()`), transport close. -/
inductive Event where
  | wsOpen
  | recv (data : String) (now : Nat)
  | userSend (message : String) (now : Nat)
  | wsClose
deriving DecidableEq, Repr

/-- Session state of one Chatbot instance: the `messages` React state,
whether the socket is OPEN, and the list of payloads sent so far. -/
structure ChatState where
  messages : List Message
  ready : Bool
  sent : List Payload
deriving DecidableEq, Repr

/-- One transition of the session: dispatch the event to the handler the
source installs for it. -/
def step (ctx : Option AppContext) (s : ChatState) : Event → ChatState
  | Event.wsOpen =>
      { s with ready := true, sent := s.sent ++ onOpen ctx true }
  | Event.recv data now =>
      { s with messages := onMessage data now s.messages }
  | Event.userSend m now =>
      let r := handleSendMessage ctx m now s.messages s.ready
      { s with messages := r.1, sent := s.sent ++ r.2.toList }
  | Event.wsClose =>
      { s with ready := false }

/-- State at component mount: the transcript holds only the synthetic
greeting, the socket is not yet open, nothing sent. -/
def initState (ctx : Option AppContext) (t0 : Nat) : ChatState :=
  { messages := [initialMessage ctx t0], ready := false, sent := [] }

/-- Run the session from a state through a list of events. -/
def runFrom (ctx : Option AppContext) (s : ChatState) : List Event → ChatState
  | [] => s
  | e :: es => runFrom ctx (step ctx s e) es

/-- Run a whole session from mount. -/
def run (ctx : Option AppContext) (t0 : Nat) (tr : List Event) : ChatState :=
  runFrom ctx (initState ctx t0) tr

/-- The clock value an event consumes, when it consumes one. -/
def eventClock : Event → Option Nat
  | Event.wsOpen => none
  | Event.recv _ now => some now
  | Event.userSend _ now => some now
  | Event.wsClose => none

/-- The clock values of a trace are strictly increasing and stay above
the bound: the real-time behaviour of `Date.now()` across distinct
milliseconds. -/
def clocksMono (lb : Nat) : List Event → Bool
  | [] => true
  | e :: es =>
      match eventClock e with
      | none => clocksMono lb es
      | some t => decide (lb < t) && clocksMono t es

/-- Every clock value of the trace differs from 1 (the value reserved
for the greeting id); `Date.now()` is the milliseconds since 1970. -/
def clocksNeOne : List Event → Bool
  | [] => true
  | e :: es =>
      match eventClock e with
      | none => clocksNeOne es
      | some t => decide (t ≠ 1) && clocksNeOne es

/-- The last clock value of a trace, or the bound if none occurs. -/
def lastClock (lb : Nat) : List Event → Nat
  | [] => lb
  | e :: es =>
      match eventClock e with
      | none => lastClock lb es
      | some t => lastClock t es

/-! ### Fallback Chatbot variant (second component in chat-input.tsx) -/

/-- Remove the first occurrence of `pat` from the character list:
JavaScript `String.prototype.replace(pat, "")` with a string pattern
replaces only the first occurrence. -/
def replaceFirstAux (pat : List Char) : List Char → List Char
  | [] => []
  | c :: cs =>
      if pat.isPrefixOf (c :: cs) then (c :: cs).drop pat.length
      else c :: replaceFirstAux pat cs

/-- `s.replace(pat, "")` of JavaScript, on Lean strings. -/
def replaceFirst (s pat : String) : String :=
  ⟨replaceFirstAux pat.data s.data⟩

/-- Whether `pat` occurs as a contiguous sublist, aligned with the
recursion of `replaceFirstAux`. -/
def containsSub (pat : List Char) : List Char → Bool
  | [] => pat.isPrefixOf ([] : List Char)
  | c :: cs => pat.isPrefixOf (c :: cs) || containsSub pat cs

/-- `ws.onmessage` of the fallback Chatbot (chat-input.tsx lines
98-111): the sentinel is ignored; any other frame is appended as an
assistant message with `responseText.replace("echo: ", "")` as content. -/
def onMessageFallback (data : String) (now : Nat) (msgs : List Message) : List Message :=
  if data = "connected" then msgs
  else msgs ++
    [{ id := now, content := replaceFirst data "echo: ",
       role := Role.assistant, timestamp := now }]

/-- `handleSendMessage` of the fallback Chatbot (chat-input.tsx lines
126-142): append a user message; if the socket is OPEN send the bare
message string, else send nothing. -/
def handleSendMessageFallback (message : String) (now : Nat)
    (msgs : List Message) (ready : Bool) : List Message × Option String :=
  let userMessage : Message :=
    { id := now, content := message, role := Role.user, timestamp := now }
  (msgs ++ [userMessage], if ready then some message else none)

/-! ### ChatInput (chat-input.tsx, first component) -/

/-- A UI event reaching the ChatInput handlers: a key press in the
textarea (key name and shift-modifier state) or a click on the send
button. -/
inductive InputEvent where
  | key (k : String) (shift : Bool)
  | click
deriving DecidableEq, Repr

/-- Whether the event is one of the two send gestures: Enter without
shift (`handleKeyPress`) or the button click (`handleSendClick`). -/
def isSendEvent : InputEvent → Bool
  | InputEvent.key k shift => k = "Enter" && !shift
  | InputEvent.click => true

/-- The character class removed by JavaScript `String.prototype.trim`:
ECMAScript WhiteSpace and LineTerminator code points (the common ones). -/
def jsWhitespaceChar (c : Char) : Bool :=
  c = ' ' || c = '\t' || c = '\n' || c = '\r' ||
  c = '\x0b' || c = '\x0c' || c = '\u00a0' || c = '\ufeff'

/-- JavaScript `value.trim()`: strip leading and trailing whitespace. -/
def jsTrim (s : String) : String :=
  ⟨((s.data.dropWhile jsWhitespaceChar).reverse.dropWhile jsWhitespaceChar).reverse⟩

/-- The ChatInput dispatch (chat-input.tsx lines 13-30): on Enter
without shift, or on click, call `onSend` with the raw textarea value
when its trimmed form is non-empty (JavaScript string truthiness);
return the argument passed to `onSend`, or none when it is not called. -/
def inputSend : InputEvent → String → Option String
  | InputEvent.key k shift, v =>
      if k = "Enter" && !shift then
        (if jsTrim v ≠ "" then some v else none)
      else none
  | InputEvent.click, v =>
      if jsTrim v ≠ "" then some v else none

/-! ### API configuration (config/api.ts) -/

/-- Default `VITE_API_URL` fallback. -/
def API_URL : String := "http://localhost:8000"

/-- Default `VITE_WS_URL` fallback. -/
def WS_URL : String := "ws://localhost:8000"

/-- `apiConfig.endpoints`: `chat` is a plain URL string, `chatWs` is a
function from an application id to the socket URL. -/
structure Endpoints where
  chat : String
  chatWs : String → String

/-- The `endpoints` object of `apiConfig` (config/api.ts). -/
def apiConfigEndpoints : Endpoints :=
  { chat := API_URL ++ "/api/chat"
    chatWs := fun applicationId => WS_URL ++ "/ws/chat/" ++ applicationId }

/-- A JavaScript value as it reaches the `WebSocket` constructor:
either a string or a function value. -/
inductive JsVal where
  | str (s : String)
  | fn (f : String → String)

/-- Discriminator: is the value a string? -/
def JsVal.isStr : JsVal → Bool
  | JsVal.str _ => true
  | JsVal.fn _ => false

/-- The argument the Chatbot passes to the WebSocket constructor
(chatbot.tsx line 46): `new WebSocket(apiConfig.endpoints.chatWs)`
passes the `chatWs` member itself, without applying it to an
application id. -/
def chatbotSocketArg : JsVal := JsVal.fn apiConfigEndpoints.chatWs

/-- The concrete context of the spec scenario (`first_name:"Ana",
matching_score:82`), used for witnesses. -/
def sampleCtx : AppContext :=
  { id := "a1", vacancy_id := "v1", first_name := "Ana", last_name := "Doe"
    email := "ana@example.com", resume_pdf := "cv.pdf", matching_score := 82
    matching_sections := { requirements := [], FIT_SCORE := 82 } }

/-- Invariant backing the priming property: once the socket has been
open the first payload ever sent is the priming envelope. -/
def PrimingInv (c : AppContext) (s : ChatState) : Prop :=
  (s.ready = true → s.sent ≠ []) ∧
  (s.sent ≠ [] → s.sent.head? = some (primingPayload c))

theorem runFrom_append (ctx : Option AppContext) (tr es : List Event) (s : ChatState) :
    runFrom ctx s (tr ++ es) = runFrom ctx (runFrom ctx s tr) es := by
  induction tr generalizing s with
  | nil => rfl
  | cons e tr ih => simp [runFrom, ih]

theorem clocksNeOne_append (tr es : List Event) :
    clocksNeOne (tr ++ es) = (clocksNeOne tr && clocksNeOne es) := by
  induction tr with
  | nil => simp [clocksNeOne]
  | cons e tr ih =>
    cases e <;> simp [clocksNeOne, eventClock, ih, Bool.and_assoc]

theorem runFrom_messages_shape (ctx : Option AppContext) :
    ∀ (tr : List Event) (s : ChatState), clocksNeOne tr = true →
      ∃ rest, (runFrom ctx s tr).messages = s.messages ++ rest ∧ ∀ m ∈ rest, m.id ≠ 1 := by
  intro tr
  induction tr with
  | nil => exact fun s _ => ⟨[], by simp [runFrom], by simp⟩
  | cons e es ih =>
    intro s h
    cases e with
    | wsOpen =>
      obtain ⟨rest, hr, hid⟩ := ih (step ctx s Event.wsOpen) (by simpa [clocksNeOne, eventClock] using h)
      exact ⟨rest, by simpa [runFrom, step] using hr, hid⟩
    | wsClose =>
      obtain ⟨rest, hr, hid⟩ := ih (step ctx s Event.wsClose) (by simpa [clocksNeOne, eventClock] using h)
      exact ⟨rest, by simpa [runFrom, step] using hr, hid⟩
    | recv data now =>
      have h1 : now ≠ 1 := by
        have := h
        simp [clocksNeOne, eventClock] at this
        exact this.1
      have h2 : clocksNeOne es = true := by
        have := h
        simp [clocksNeOne, eventClock] at this
        exact this.2
      by_cases hd : data = "connected"
      · obtain ⟨rest, hr, hid⟩ := ih (step ctx s (Event.recv data now)) h2
        refine ⟨rest, ?_, hid⟩
        simpa [runFrom, step, onMessage, hd] using hr
      · obtain ⟨rest, hr, hid⟩ := ih (step ctx s (Event.recv data now)) h2
        refine ⟨{ id := now, content := data, role := Role.assistant, timestamp := now } :: rest, ?_, ?_⟩
        · simp only [runFrom] at hr ⊢
          rw [hr]
          simp [step, onMessage, hd]
        · intro m hm
          rcases List.mem_cons.mp hm with hm | hm
          · simpa [hm] using h1
          · exact hid m hm
    | userSend msg now =>
      have h1 : now ≠ 1 := by
        have := h
        simp [clocksNeOne, eventClock] at this
        exact this.1
      have h2 : clocksNeOne es = true := by
        have := h
        simp [clocksNeOne, eventClock] at this
        exact this.2
      obtain ⟨rest, hr, hid⟩ := ih (step ctx s (Event.userSend msg now)) h2
      refine ⟨{ id := now, content := msg, role := Role.user, timestamp := now } :: rest, ?_, ?_⟩
      · simp only [runFrom] at hr ⊢
        rw [hr]
        simp [step, handleSendMessage]
      · intro m hm
        rcases List.mem_cons.mp hm with hm | hm
        · simpa [hm] using h1
        · exact hid m hm

theorem runFrom_ids_mono (ctx : Option AppContext) :
    ∀ (tr : List Event) (s : ChatState) (lb : Nat),
      clocksMono lb tr = true →
      (∀ m ∈ s.messages, m.id ≤ lb) →
      ((s.messages.map Message.id).Pairwise (· < ·)) →
      (((runFrom ctx s tr).messages.map Message.id).Pairwise (· < ·)) ∧
      (∀ m ∈ (runFrom ctx s tr).messages, m.id ≤ lastClock lb tr) := by
  intro tr
  induction tr with
  | nil =>
    intro s lb _ hb hp
    exact ⟨hp, by simpa [runFrom, lastClock] using hb⟩
  | cons e es ih =>
    intro s lb h hb hp
    cases e with
    | wsOpen =>
      have h2 : clocksMono lb es = true := by simpa [clocksMono, eventClock] using h
      have := ih (step ctx s Event.wsOpen) lb h2 (by simpa [step] using hb) (by simpa [step] using hp)
      simpa [runFrom, lastClock, eventClock] using this
    | wsClose =>
      have h2 : clocksMono lb es = true := by simpa [clocksMono, eventClock] using h
      have := ih (step ctx s Event.wsClose) lb h2 (by simpa [step] using hb) (by simpa [step] using hp)
      simpa [runFrom, lastClock, eventClock] using this
    | recv data now =>
      have hlt : lb < now := by
        have := h; simp [clocksMono, eventClock] at this; exact this.1
      have h2 : clocksMono now es = true := by
        have := h; simp [clocksMono, eventClock] at this; exact this.2
      by_cases hd : data = "connected"
      · have hb2 : ∀ m ∈ (step ctx s (Event.recv data now)).messages, m.id ≤ now := by
          simp only [step, onMessage, hd, if_pos rfl]
          exact fun m hm => Nat.le_trans (hb m hm) (Nat.le_of_lt hlt)
        have hp2 : (((step ctx s (Event.recv data now)).messages.map Message.id).Pairwise (· < ·)) := by
          simpa [step, onMessage, hd] using hp
        have := ih (step ctx s (Event.recv data now)) now h2 hb2 hp2
        simpa [runFrom, lastClock, eventClock] using this
      · have hmsgs : (step ctx s (Event.recv data now)).messages =
            s.messages ++ [{ id := now, content := data, role := Role.assistant, timestamp := now }] := by
          simp [step, onMessage, hd]
        have hb2 : ∀ m ∈ (step ctx s (Event.recv data now)).messages, m.id ≤ now := by
          rw [hmsgs]
          intro m hm
          rcases List.mem_append.mp hm with hm | hm
          · exact Nat.le_trans (hb m hm) (Nat.le_of_lt hlt)
          · rcases List.mem_singleton.mp hm with rfl
            exact Nat.le_refl now
        have hp2 : (((step ctx s (Event.recv data now)).messages.map Message.id).Pairwise (· < ·)) := by
          rw [hmsgs, List.map_append]
          refine List.pairwise_append.mpr ⟨hp, List.pairwise_singleton _ _, ?_⟩
          intro a ha b hbb
          rcases List.mem_map.mp ha with ⟨mm, hmm, rfl⟩
          rcases List.mem_singleton.mp (by simpa using hbb) with rfl
          exact Nat.lt_of_le_of_lt (hb mm hmm) hlt
        have := ih (step ctx s (Event.recv data now)) now h2 hb2 hp2
        simpa [runFrom, lastClock, eventClock] using this
    | userSend msg now =>
      have hlt : lb < now := by
        have := h; simp [clocksMono, eventClock] at this; exact this.1
      have h2 : clocksMono now es = true := by
        have := h; simp [clocksMono, eventClock] at this; exact this.2
      have hmsgs : (step ctx s (Event.userSend msg now)).messages =
          s.messages ++ [{ id := now, content := msg, role := Role.user, timestamp := now }] := by
        simp [step, handleSendMessage]
      have hb2 : ∀ m ∈ (step ctx s (Event.userSend msg now)).messages, m.id ≤ now := by
        rw [hmsgs]
        intro m hm
        rcases List.mem_append.mp hm with hm | hm
        · exact Nat.le_trans (hb m hm) (Nat.le_of_lt hlt)
        · rcases List.mem_singleton.mp hm with rfl
          exact Nat.le_refl now
      have hp2 : (((step ctx s (Event.userSend msg now)).messages.map Message.id).Pairwise (· < ·)) := by
        rw [hmsgs, List.map_append]
        refine List.pairwise_append.mpr ⟨hp, List.pairwise_singleton _ _, ?_⟩
        intro a ha b hbb
        rcases List.mem_map.mp ha with ⟨mm, hmm, rfl⟩
        rcases List.mem_singleton.mp (by simpa using hbb) with rfl
        exact Nat.lt_of_le_of_lt (hb mm hmm) hlt
      have := ih (step ctx s (Event.userSend msg now)) now h2 hb2 hp2
      simpa [runFrom, lastClock, eventClock] using this

theorem runFrom_context_inv (ctx : Option AppContext) :
    ∀ (tr : List Event) (s : ChatState),
      (∀ p ∈ s.sent, p.context = ctx) →
      ∀ p ∈ (runFrom ctx s tr).sent, p.context = ctx := by
  intro tr
  induction tr with
  | nil => intro s h; simpa [runFrom] using h
  | cons e es ih =>
    intro s h
    simp only [runFrom]
    refine ih (step ctx s e) ?_
    intro p hp
    cases e with
    | wsOpen =>
      rcases List.mem_append.mp (by simpa [step] using hp) with hp2 | hp2
      · exact h p hp2
      · cases ctx with
        | none => simp [onOpen] at hp2
        | some c =>
          simp [onOpen, primingPayload] at hp2
          subst hp2
          rfl
    | recv data now => exact h p (by simpa [step] using hp)
    | wsClose => exact h p (by simpa [step] using hp)
    | userSend msg now =>
      have hp2 : p ∈ s.sent ∨ (handleSendMessage ctx msg now s.messages s.ready).2 = some p := by
        simpa [step] using hp
      rcases hp2 with hp3 | hp3
      · exact h p hp3
      · by_cases hr : s.ready = true
        · simp [handleSendMessage, hr] at hp3
          subst hp3
          rfl
        · have hrf : s.ready = false := by
            revert hr; cases s.ready <;> simp
          simp [handleSendMessage, hrf] at hp3

theorem step_priming_inv (c : AppContext) (s : ChatState) (e : Event)
    (h : PrimingInv c s) : PrimingInv c (step (some c) s e) := by
  obtain ⟨h1, h2⟩ := h
  cases e with
  | wsOpen =>
    constructor
    · intro _
      simp [step, onOpen]
    · intro _
      show ((s.sent ++ onOpen (some c) true).head? = _)
      cases hs : s.sent with
      | nil => simp [onOpen]
      | cons a as =>
        have := h2 (by simp [hs])
        simpa [hs] using this
  | recv data now =>
    exact ⟨fun hr => h1 hr, fun hs => h2 hs⟩
  | wsClose =>
    constructor
    · intro hr
      simp [step] at hr
    · intro hs
      exact h2 hs
  | userSend msg now =>
    constructor
    · intro hr
      have hr2 : s.ready = true := by simpa [step] using hr
      have hne := h1 hr2
      show s.sent ++ _ ≠ []
      simp [hne]
    · intro hne
      show ((s.sent ++ _).head? = _)
      by_cases hrs : s.ready = true
      · have hne := h1 hrs
        cases hs : s.sent with
        | nil => exact absurd hs hne
        | cons a as =>
          have := h2 (by simp [hs])
          simpa [hs] using this
      · have hrf : s.ready = false := by
          revert hrs; cases s.ready <;> simp
        cases hs : s.sent with
        | nil =>
          exfalso
          apply hne
          show s.sent ++ _ = []
          simp [hs, handleSendMessage, hrf]
        | cons a as =>
          have := h2 (by simp [hs])
          simpa [hs] using this

theorem runFrom_priming_inv (c : AppContext) :
    ∀ (tr : List Event) (s : ChatState),
      PrimingInv c s → PrimingInv c (runFrom (some c) s tr) := by
  intro tr
  induction tr with
  | nil => intro s h; simpa [runFrom] using h
  | cons e es ih =>
    intro s h
    simp only [runFrom]
    exact ih _ (step_priming_inv c s e h)

theorem isPrefixOf_eq_append (l1 : List Char) :
    ∀ l2 : List Char, l1.isPrefixOf l2 = true → ∃ t, l1 ++ t = l2 := by
  induction l1 with
  | nil => exact fun l2 _ => ⟨l2, rfl⟩
  | cons a l ih =>
    intro l2 h
    cases l2 with
    | nil => simp [List.isPrefixOf] at h
    | cons b t =>
      rw [List.isPrefixOf, Bool.and_eq_true, beq_iff_eq] at h
      obtain ⟨t2, ht⟩ := ih t h.2
      exact ⟨t2, by rw [h.1, List.cons_append, ht]⟩

theorem isPrefixOf_append_self (l1 t : List Char) : l1.isPrefixOf (l1 ++ t) = true := by
  induction l1 with
  | nil => simp [List.isPrefixOf]
  | cons a l ih => simp [List.isPrefixOf, ih]

theorem replaceFirstAux_of_not_contains (pat : List Char) :
    ∀ l : List Char, containsSub pat l = false → replaceFirstAux pat l = l := by
  intro l
  induction l with
  | nil => intro _; rfl
  | cons c cs ih =>
    intro h
    rw [containsSub, Bool.or_eq_false_iff] at h
    simp [replaceFirstAux, h.1, ih h.2]

theorem replaceFirstAux_first_occurrence (pat : List Char) :
    ∀ l : List Char, containsSub pat l = true →
      ∃ pre post : List Char,
        l = pre ++ pat ++ post ∧
        replaceFirstAux pat l = pre ++ post ∧
        ∀ pre2 post2 : List Char, l = pre2 ++ pat ++ post2 → pre.length ≤ pre2.length := by
  intro l
  induction l with
  | nil =>
    intro h
    rw [containsSub] at h
    have hpat : pat = [] := by
      rcases isPrefixOf_eq_append pat [] h with ⟨t, ht⟩
      exact (List.append_eq_nil.mp ht).1
    subst hpat
    exact ⟨[], [], rfl, rfl, fun _ _ _ => Nat.zero_le _⟩
  | cons c cs ih =>
    intro h
    by_cases hp : pat.isPrefixOf (c :: cs) = true
    · rcases isPrefixOf_eq_append pat (c :: cs) hp with ⟨t, ht⟩
      refine ⟨[], t, by simp [← ht], ?_, fun _ _ _ => Nat.zero_le _⟩
      rw [replaceFirstAux, if_pos hp, ← ht, List.drop_left]
      rfl
    · have hp2 : pat.isPrefixOf (c :: cs) = false := by
        revert hp; cases pat.isPrefixOf (c :: cs) <;> simp
      have hcs : containsSub pat cs = true := by
        rw [containsSub, hp2] at h
        simpa using h
      obtain ⟨pre, post, hl, hr, hmin⟩ := ih hcs
      refine ⟨c :: pre, post, by simp [hl], ?_, ?_⟩
      · rw [replaceFirstAux, if_neg (by simp [hp2])]
        simp [hr]
      · intro pre2 post2 heq
        cases pre2 with
        | nil =>
          exfalso
          have : pat.isPrefixOf (c :: cs) = true := by
            rw [show (c :: cs) = pat ++ post2 by simpa using heq]
            exact isPrefixOf_append_self pat post2
          rw [this] at hp2
          exact Bool.noConfusion hp2
        | cons d ds =>
          have hinj := List.cons_eq_cons.mp (by simpa using heq)
          have := hmin ds post2 (by rw [hinj.2, List.append_assoc])
          simpa using Nat.succ_le_succ this

/-- C1: on every user send handled by `handleSendMessage` in a reachable
session state (clock values never equal to the reserved greeting id 1,
socket open), the `history` field of the payload sent equals the ordered
list of all prior transcript messages as role/content pairs — user and
assistant alike — excluding the synthetic initial greeting (the entry
with identifier 1), followed by the new user message. -/
theorem history_is_transcript_minus_greeting (ctx : Option AppContext) (t0 : Nat)
    (tr : List Event) (m : String) (t : Nat)
    (hc : clocksNeOne (tr ++ [Event.userSend m t]) = true)
    (hready : (run ctx t0 tr).ready = true) :
    ∃ rest, (run ctx t0 tr).messages = initialMessage ctx t0 :: rest ∧
      (run ctx t0 (tr ++ [Event.userSend m t])).sent =
        (run ctx t0 tr).sent ++
          [{ message := m,
             history := rest.map toHistEntry ++ [{ role := Role.user, content := m }],
             context := ctx }] := by
  rw [clocksNeOne_append] at hc
  rw [Bool.and_eq_true] at hc
  obtain ⟨hc1, hc2⟩ := hc
  have ht1 : t ≠ 1 := by simpa [clocksNeOne, eventClock] using hc2
  obtain ⟨rest, hmsg, hid⟩ := runFrom_messages_shape ctx tr (initState ctx t0) hc1
  have hmsg2 : (run ctx t0 tr).messages = initialMessage ctx t0 :: rest := by
    simpa [run, initState] using hmsg
  refine ⟨rest, hmsg2, ?_⟩
  have hrw : run ctx t0 (tr ++ [Event.userSend m t]) =
      step ctx (run ctx t0 tr) (Event.userSend m t) := by
    rw [run, runFrom_append]
    rfl
  rw [hrw]
  have hfil : (((run ctx t0 tr).messages ++
      ([{ id := t, content := m, role := Role.user, timestamp := t }] : List Message)).filter
        (fun mm => mm.id != 1)) =
      rest ++ [{ id := t, content := m, role := Role.user, timestamp := t }] := by
    rw [hmsg2, List.cons_append, List.filter_cons_of_neg (by simp [initialMessage]),
        List.filter_append]
    rw [List.filter_eq_self.mpr (fun a ha => bne_iff_ne.mpr (hid a ha))]
    simp [ht1]
  simp only [step, handleSendMessage, hready]
  rw [hfil]
  simp [toHistEntry]

/-- Witness for C1 at a concrete session: open, one assistant frame,
then a user send. -/
theorem history_is_transcript_minus_greeting_w :
    ∃ rest, (run none 0 [Event.wsOpen, Event.recv "Welcome" 3]).messages =
        initialMessage none 0 :: rest ∧
      (run none 0 ([Event.wsOpen, Event.recv "Welcome" 3] ++ [Event.userSend "Hi" 7])).sent =
        (run none 0 [Event.wsOpen, Event.recv "Welcome" 3]).sent ++
          [{ message := "Hi",
             history := rest.map toHistEntry ++ [{ role := Role.user, content := "Hi" }],
             context := none }] :=
  history_is_transcript_minus_greeting none 0 [Event.wsOpen, Event.recv "Welcome" 3]
    "Hi" 7 (by decide) (by decide)

/-- Counterexample to C2: when the client sends the single message
"Hi" with no prior user turns and no context, the payload sent is
`{message:"Hi", history:[{role:user, content:"Hi"}], context:none}` —
`handleSendMessage` includes the new user message in `history`, so the
history field is not `[]` as the claim states. -/
theorem first_turn_payload_cex :
    (run none 0 [Event.wsOpen, Event.userSend "Hi" 5]).sent =
      [{ message := "Hi", history := [{ role := Role.user, content := "Hi" }], context := none }] ∧
    decide ((run none 0 [Event.wsOpen, Event.userSend "Hi" 5]).sent =
      [{ message := "Hi", history := [], context := none }]) = false :=
  ⟨by decide, by decide⟩

/-- C2 amended: the single-send scenario with the actual payload — the
history carries the new user message itself — and the analyzer reply
"Hello, how can I help?" appended verbatim as the next assistant
message. -/
theorem first_turn_scenario :
    (run none 0 [Event.wsOpen, Event.userSend "Hi" 5,
        Event.recv "Hello, how can I help?" 9]).sent =
      [{ message := "Hi", history := [{ role := Role.user, content := "Hi" }], context := none }] ∧
    (run none 0 [Event.wsOpen, Event.userSend "Hi" 5,
        Event.recv "Hello, how can I help?" 9]).messages =
      [initialMessage none 0,
       { id := 5, content := "Hi", role := Role.user, timestamp := 5 },
       { id := 9, content := "Hello, how can I help?", role := Role.assistant, timestamp := 9 }] :=
  ⟨by decide, by decide⟩

/-- C3: on the transport open event, exactly one priming envelope
`{message: "Initialize conversation with application context",
history: [], context}` is sent when a context was supplied, and nothing
is sent when none was; moreover in any session with a context the first
payload ever sent is that priming envelope, so it precedes every user
frame. -/
theorem priming_envelope_on_open :
    (∀ (c : AppContext) (s : ChatState),
       (step (some c) s Event.wsOpen).sent = s.sent ++ [primingPayload c]) ∧
    (∀ s : ChatState, (step none s Event.wsOpen).sent = s.sent) ∧
    (∀ (c : AppContext) (t0 : Nat) (tr : List Event) (p : Payload),
       (run (some c) t0 tr).sent.head? = some p → p = primingPayload c) := by
  refine ⟨fun c s => by simp [step, onOpen], fun s => by simp [step, onOpen], ?_⟩
  intro c t0 tr p hp
  have hne : (run (some c) t0 tr).sent ≠ [] := by
    intro h0
    rw [h0] at hp
    simp at hp
  have hinv : (run (some c) t0 tr).sent.head? = some (primingPayload c) :=
    (runFrom_priming_inv c tr (initState (some c) t0)
      ⟨by simp [initState], by simp [initState]⟩).2 hne
  rw [hp] at hinv
  exact Option.some_inj.mp hinv

/-- Witness for C3 part three at the concrete one-event trace. -/
theorem priming_envelope_on_open_w :
    (run (some sampleCtx) 0 [Event.wsOpen]).sent.head? = some (primingPayload sampleCtx) ∧
    primingPayload sampleCtx = primingPayload sampleCtx :=
  ⟨by decide,
   priming_envelope_on_open.2.2 sampleCtx 0 [Event.wsOpen] (primingPayload sampleCtx) (by decide)⟩

/-- C4: an incoming frame equal to the sentinel "connected" appends
nothing to the transcript (in both Chatbot variants); every other frame
appends exactly one assistant message. -/
theorem sentinel_ignored_frames_appended :
    (∀ (t : Nat) (msgs : List Message), onMessage "connected" t msgs = msgs) ∧
    (∀ (t : Nat) (msgs : List Message), onMessageFallback "connected" t msgs = msgs) ∧
    (∀ (d : String) (t : Nat) (msgs : List Message), d ≠ "connected" →
       ∃ mg, onMessage d t msgs = msgs ++ [mg] ∧ mg.role = Role.assistant ∧ mg.content = d ∧
         (onMessage d t msgs).length = msgs.length + 1) ∧
    (∀ (d : String) (t : Nat) (msgs : List Message), d ≠ "connected" →
       ∃ mg, onMessageFallback d t msgs = msgs ++ [mg] ∧ mg.role = Role.assistant ∧
         (onMessageFallback d t msgs).length = msgs.length + 1) := by
  refine ⟨fun t msgs => by simp [onMessage],
          fun t msgs => by simp [onMessageFallback], ?_, ?_⟩
  · intro d t msgs hd
    exact ⟨{ id := t, content := d, role := Role.assistant, timestamp := t },
      by simp [onMessage, hd], rfl, rfl, by simp [onMessage, hd]⟩
  · intro d t msgs hd
    exact ⟨{ id := t, content := replaceFirst d "echo: ", role := Role.assistant, timestamp := t },
      by simp [onMessageFallback, hd], rfl, by simp [onMessageFallback, hd]⟩

/-- Witness for C4 on the concrete non-sentinel frame "hello". -/
theorem sentinel_ignored_frames_appended_w :
    ∃ mg, onMessage "hello" 5 ([] : List Message) = ([] : List Message) ++ [mg] ∧
      mg.role = Role.assistant ∧ mg.content = "hello" ∧
      (onMessage "hello" 5 ([] : List Message)).length = ([] : List Message).length + 1 :=
  sentinel_ignored_frames_appended.2.2.1 "hello" 5 ([] : List Message) (by decide)

/-- Counterexample to C5: two user sends in the same `Date.now()`
millisecond produce two transcript messages with the same identifier,
so identifiers are not pairwise distinct for every event sequence. -/
theorem ids_distinct_cex :
    ((run none 0 [Event.userSend "a" 5, Event.userSend "b" 5]).messages.map Message.id) =
      [1, 5, 5] ∧
    decide (((run none 0 [Event.userSend "a" 5,
        Event.userSend "b" 5]).messages.map Message.id).Pairwise (fun a b => a ≠ b)) = false :=
  ⟨by decide, by decide⟩

/-- C5 amended: provided the clock values of the events strictly
increase and stay above the reserved greeting id 1 (true of `Date.now()`
across distinct milliseconds), all transcript identifiers are strictly
increasing in arrival order, hence pairwise distinct. -/
theorem ids_distinct_mono (ctx : Option AppContext) (t0 : Nat) (tr : List Event)
    (hc : clocksMono 1 tr = true) :
    (((run ctx t0 tr).messages.map Message.id).Pairwise (· < ·)) ∧
    (((run ctx t0 tr).messages.map Message.id).Pairwise (· ≠ ·)) := by
  have h1 : ∀ m ∈ (initState ctx t0).messages, m.id ≤ 1 := by
    simp [initState, initialMessage]
  have h2 : (((initState ctx t0).messages.map Message.id).Pairwise (· < ·)) := by
    simp [initState]
  have hm := runFrom_ids_mono ctx tr (initState ctx t0) 1 hc h1 h2
  exact ⟨hm.1, hm.1.imp Nat.ne_of_lt⟩

/-- Witness for C5 amended at a concrete strictly-clocked trace. -/
theorem ids_distinct_mono_w :
    (((run none 0 [Event.userSend "a" 5, Event.recv "x" 9]).messages.map
        Message.id).Pairwise (· < ·)) ∧
    (((run none 0 [Event.userSend "a" 5, Event.recv "x" 9]).messages.map
        Message.id).Pairwise (· ≠ ·)) :=
  ids_distinct_mono none 0 [Event.userSend "a" 5, Event.recv "x" 9] (by decide)

/-- C6: the configuration maps an application id to the base WS URL
followed by "/ws/chat/" and the id, but the Chatbot passes the `chatWs`
function itself — not an applied URL string — to the WebSocket
constructor, so no string of the claimed shape reaches it. -/
theorem socket_url_construction :
    (∀ appId : String, apiConfigEndpoints.chatWs appId = WS_URL ++ "/ws/chat/" ++ appId) ∧
    chatbotSocketArg = JsVal.fn apiConfigEndpoints.chatWs ∧
    chatbotSocketArg.isStr = false :=
  ⟨fun _ => rfl, rfl, rfl⟩

/-- C7: every send site is guarded by the readyState check — when the
socket is not OPEN a user send transmits nothing (in both variants) and
the close transition transmits nothing. -/
theorem no_send_unless_open :
    (∀ (ctx : Option AppContext) (s : ChatState) (m : String) (t : Nat),
       s.ready = false → (step ctx s (Event.userSend m t)).sent = s.sent) ∧
    (∀ (ctx : Option AppContext) (s : ChatState), (step ctx s Event.wsClose).sent = s.sent) ∧
    (∀ (ctx : Option AppContext) (m : String) (t : Nat) (msgs : List Message),
       (handleSendMessage ctx m t msgs false).2 = none) ∧
    (∀ (m : String) (t : Nat) (msgs : List Message),
       (handleSendMessageFallback m t msgs false).2 = none) := by
  refine ⟨?_, fun ctx s => rfl, fun ctx m t msgs => rfl, fun m t msgs => rfl⟩
  intro ctx s m t h
  simp [step, handleSendMessage, h]

/-- Witness for C7 on a concrete closed-socket state. -/
theorem no_send_unless_open_w :
    (step none { messages := [], ready := false, sent := [] }
      (Event.userSend "x" 5)).sent = ChatState.sent { messages := [], ready := false, sent := [] } :=
  no_send_unless_open.1 none { messages := [], ready := false, sent := [] } "x" 5 rfl

/-- C8: every payload sent during a session — the priming envelope and
every per-turn payload — carries the application context supplied at
session creation, unmodified. -/
theorem context_passed_verbatim (ctx : Option AppContext) (t0 : Nat) (tr : List Event) :
    ∀ p ∈ (run ctx t0 tr).sent, p.context = ctx :=
  runFrom_context_inv ctx tr (initState ctx t0) (by simp [initState])

/-- Witness for C8 on the priming payload of a concrete session. -/
theorem context_passed_verbatim_w :
    (primingPayload sampleCtx).context = some sampleCtx :=
  context_passed_verbatim (some sampleCtx) 0 [Event.wsOpen] (primingPayload sampleCtx) (by decide)

/-- C9: for every ChatInput event, `onSend` is invoked exactly when the
event is a send gesture (Enter without shift, or click) and the textarea
value has non-empty trimmed content; when invoked it receives the raw
untrimmed value, whose trimmed form is non-empty — so no whitespace-only
user message enters the transcript through this input. -/
theorem input_send_guard :
    (∀ (e : InputEvent) (v : String),
       (inputSend e v).isSome = (isSendEvent e && !(jsTrim v == ""))) ∧
    (∀ (e : InputEvent) (v w : String), inputSend e v = some w → w = v ∧ jsTrim w ≠ "") := by
  constructor
  · intro e v
    cases e with
    | key k shift =>
      by_cases hk : (decide (k = "Enter") && !shift) = true
      · by_cases hv : jsTrim v = "" <;> simp [inputSend, isSendEvent, hk, hv]
      · have hk2 : (decide (k = "Enter") && !shift) = false := by
          revert hk; cases (decide (k = "Enter") && !shift) <;> simp
        simp [inputSend, isSendEvent, hk2]
    | click =>
      by_cases hv : jsTrim v = "" <;> simp [inputSend, isSendEvent, hv]
  · intro e v w h
    cases e with
    | key k shift =>
      by_cases hk : (decide (k = "Enter") && !shift) = true
      · by_cases hv : jsTrim v = ""
        · simp [inputSend, hk, hv] at h
        · simp [inputSend, hk, hv] at h
          exact ⟨h.symm, h.symm ▸ hv⟩
      · simp [inputSend, hk] at h
    | click =>
      by_cases hv : jsTrim v = ""
      · simp [inputSend, hv] at h
      · simp [inputSend, hv] at h
        exact ⟨h.symm, h.symm ▸ hv⟩

/-- Witness for C9 on the concrete raw value " hi " sent by click. -/
theorem input_send_guard_w :
    " hi " = " hi " ∧ jsTrim " hi " ≠ "" :=
  input_send_guard.2 InputEvent.click " hi " " hi " (by decide)

/-- C10: the fallback Chatbot appends every non-sentinel frame as an
assistant message whose content is the frame text with the first
occurrence of "echo: " removed (`String.replace` with a string pattern
replaces only the first occurrence); a frame not containing that
substring is appended unchanged. -/
theorem fallback_echo_strip :
    (∀ (d : String) (t : Nat) (msgs : List Message), d ≠ "connected" →
       onMessageFallback d t msgs =
         msgs ++ [{ id := t, content := replaceFirst d "echo: ",
                    role := Role.assistant, timestamp := t }]) ∧
    (∀ s : String, containsSub ("echo: ".data) s.data = false →
       replaceFirst s "echo: " = s) ∧
    (∀ s : String, containsSub ("echo: ".data) s.data = true →
       ∃ pre post : List Char,
         s.data = pre ++ "echo: ".data ++ post ∧
         (replaceFirst s "echo: ").data = pre ++ post ∧
         ∀ pre2 post2 : List Char,
           s.data = pre2 ++ "echo: ".data ++ post2 → pre.length ≤ pre2.length) := by
  refine ⟨fun d t msgs hd => by simp [onMessageFallback, hd], ?_, ?_⟩
  · intro s h
    have hh := replaceFirstAux_of_not_contains ("echo: ".data) s.data h
    show (⟨replaceFirstAux "echo: ".data s.data⟩ : String) = s
    rw [hh]
  · intro s h
    simpa [replaceFirst] using
      replaceFirstAux_first_occurrence ("echo: ".data) s.data h

/-- Witness for C10 on the concrete frame "a echo: b". -/
theorem fallback_echo_strip_w :
    ∃ pre post : List Char,
      ("a echo: b" : String).data = pre ++ ("echo: " : String).data ++ post ∧
      (replaceFirst "a echo: b" "echo: ").data = pre ++ post ∧
      ∀ pre2 post2 : List Char,
        ("a echo: b" : String).data = pre2 ++ ("echo: " : String).data ++ post2 →
          pre.length ≤ pre2.length :=
  fallback_echo_strip.2.2 "a echo: b" (by decide)
